import Mathlib

/-!
Shallow embedding of the sustainity condensation pipeline
(`src/condenser/src/condensing.rs`, `advisors.rs`, `cache.rs`, `errors.rs`).
Pure data and control flow are translated directly; file I/O is modelled by
passing the parsed contents (`Option` = file accessible or not).  Rust
`HashMap` collection is modelled as a left fold of key overwriting inserts
into a lookup function, which matches `HashMap::insert` / `collect`
semantics (later entries overwrite earlier ones).  Parts of the repository
that other crates provide (the `knowledge` data model, the `ItemExt`
accessors, `utils`) are modelled from the spec and marked as such.
-/

/-- Wikidata string identifier (`sustainity_wikidata::data::StrId`).
The source also has a numeric `Id` with `to_str_id`; since that conversion
is injective the embedding uses the string form throughout. -/
abbrev WikiStrId := String

/-- `const LANG_EN: &str = "en";` (condensing.rs line 15). -/
def LANG_EN : String := "en"

/-- Modelled from the spec: `knowledge::Certifications` is not under src/.
§3: "boolean certified-by-registry-A (BCorp), boolean certified-by-registry-B
(TCO), optional numeric score from registry C (Fashion Transparency Index)".
Field names follow the construction site in condensing.rs lines 182-186. -/
structure Certifications where
  bcorp : Bool
  tco : Bool
  fti : Option Nat
deriving DecidableEq, Repr

/-- `knowledge::Certifications::default()` (condensing.rs line 152):
empty certifications. -/
def Certifications.default : Certifications :=
  { bcorp := false, tco := false, fti := none }

/-- Modelled from the spec: `knowledge::Certifications::merge` is not under
src/.  §3: "union for booleans"; §9: the optional score behaves as
last-merged wins, i.e. an incoming present score overwrites, an incoming
absent one leaves the field unchanged. -/
def Certifications.merge (a b : Certifications) : Certifications :=
  { bcorp := a.bcorp || b.bcorp
    tco := a.tco || b.tco
    fti := if b.fti.isSome then b.fti else a.fti }

/-- Product category; the only taxonomy entry tested in condensing.rs is
`knowledge::Category::Smartphone` (line 135). -/
inductive Category where
  | smartphone
deriving DecidableEq, Repr

/-- Modelled from the spec: `knowledge::Product` is not under src/.  Fields
follow §3 and the construction site in condensing.rs lines 140-153. -/
structure Product where
  id : WikiStrId
  name : String
  description : String
  category : Option Category
  manufacturer_ids : Option (List WikiStrId)
  follows : Option (List WikiStrId)
  followed_by : Option (List WikiStrId)
  certifications : Certifications
deriving DecidableEq, Repr

/-- Modelled from the spec: `knowledge::Organisation` is not under src/.
Fields follow §3 and the construction site in condensing.rs lines 173-187. -/
structure Organisation where
  id : WikiStrId
  name : String
  description : String
  websites : List String
  certifications : Certifications
deriving DecidableEq, Repr

/-- One Wikidata item (`consumers_wikidata::data::Item`), restricted to the
fields the condenser reads.  Label and description maps are per-language
association lists; the relation claims read through `ItemExt` are carried
as plain lists (`manufacturers` = values of the manufacturer relation,
`websites` = values of the official-website relation, and so on). -/
structure Item where
  id : WikiStrId
  labels : List (String × String)
  descriptions : List (String × String)
  manufacturers : List WikiStrId
  websites : List String
  instance_of : List WikiStrId
  follows_rel : List WikiStrId
  followed_by_rel : List WikiStrId
deriving DecidableEq, Repr

/-- `consumers_wikidata::data::Entity`: a closed union of a real item and a
property definition (condensing.rs lines 129-193 matches exhaustively). -/
inductive Entity where
  | item (i : Item)
  | property (id : WikiStrId)
deriving DecidableEq, Repr

/-- `HashMap::get` on a per-language map: first entry for the language. -/
def lookupLang (l : List (String × String)) (lang : String) : Option String :=
  match l with
  | [] => none
  | p :: t => if p.1 = lang then some p.2 else lookupLang t lang

/-- Modelled from the spec: `ItemExt::get_manufacturer_ids` is not under
src/.  Returns the manufacturer relation targets when the item has at least
one manufacturer relation (§4.3), `None` otherwise. -/
def Item.get_manufacturer_ids (i : Item) : Option (List WikiStrId) :=
  if i.manufacturers.isEmpty then none else some i.manufacturers

/-- Modelled from the spec: `ItemExt::get_official_websites` is not under
src/.  Returns the official-website relation values when at least one is
present, `None` otherwise. -/
def Item.get_official_websites (i : Item) : Option (List String) :=
  if i.websites.isEmpty then none else some i.websites

/-- Modelled from the spec: `ItemExt::has_official_website` is not under
src/.  §4.3: the item "exposes at least one official website". -/
def Item.has_official_website (i : Item) : Bool :=
  !i.websites.isEmpty

/-- Modelled from the spec: `ItemExt::is_instance_of` is not under src/.
Tests the "is instance of" relation against a class id (§4.3). -/
def Item.is_instance_of (i : Item) (cls : WikiStrId) : Bool :=
  decide (cls ∈ i.instance_of)

/-- Modelled from the spec: `ItemExt::get_follows` is not under src/.
Predecessor identifiers copied from the "follows" relation if present. -/
def Item.get_follows (i : Item) : Option (List WikiStrId) :=
  if i.follows_rel.isEmpty then none else some i.follows_rel

/-- Modelled from the spec: `ItemExt::get_followed_by` is not under src/. -/
def Item.get_followed_by (i : Item) : Option (List WikiStrId) :=
  if i.followed_by_rel.isEmpty then none else some i.followed_by_rel

/-- Modelled from the spec: `categories::SMARTPHONE_MODEL` is not under
src/; §4.3 calls it "a smartphone-model class" from a fixed taxonomy.  The
concrete constant is irrelevant to the claims. -/
def SMARTPHONE_MODEL : WikiStrId := "Q19723444"

/-- Modelled from the spec: `utils::extract_domain_from_url` is not under
src/; the spec treats domain extraction as an opaque normalisation, so it
is modelled as a fixed total function on URL strings.  No claim depends on
its internals. -/
def extract_domain_from_url (url : String) : String := url

/-- `HashMap::insert`: key overwriting update of a lookup function. -/
def hmInsert {V : Type} (m : WikiStrId → Option V) (k : WikiStrId) (v : V) :
    WikiStrId → Option V :=
  fun q => if q = k then some v else m q

/-- Collecting an iterator of key-value pairs into a `HashMap`: a left fold
of inserts starting from the empty map, so later pairs overwrite earlier
ones with the same key. -/
def hmCollect {V : Type} (l : List (WikiStrId × V)) : WikiStrId → Option V :=
  l.foldl (fun m p => hmInsert m p.1 p.2) (fun _ => none)

/-- Cached data from search over Wikidata (`cache::Wikidata`, cache.rs). -/
structure Wikidata where
  manufacturer_ids : List WikiStrId
  classes : List WikiStrId
deriving DecidableEq, Repr

/-- Modelled from the spec: `cache::Wikidata::has_manufacturer_id` is not
under src/ (only its caller, condensing.rs line 111); §4.2: "membership
tests for known manufacturer id … drawn from a precomputed cache". -/
def Wikidata.has_manufacturer_id (c : Wikidata) (id : WikiStrId) : Bool :=
  decide (id ∈ c.manufacturer_ids)

/-- One record of the BCorp dataset (`bcorp::data::Record`), restricted to
the fields read in advisors.rs lines 17-23. -/
structure BCorpRecord where
  company_name : String
  website : String
deriving DecidableEq, Repr

/-- Validation error (`errors::SourcesCheckError`, errors.rs lines 30-35).
The repeated-id payload is a `HashSet`; it is modelled as a duplicate-free
list. -/
inductive SourcesCheckError where
  | RepeatedIds (ids : List WikiStrId)
deriving DecidableEq, Repr

/-- Processing error (`errors::ProcessingError`, errors.rs), restricted to
the variants reachable from the embedded operations. -/
inductive ProcessingError where
  | Io (msg : String)
  | SourcesCheck (e : SourcesCheckError)
deriving DecidableEq, Repr

/-- `BCorpAdvisor` (advisors.rs lines 10-13): map from BCorp company
domains to their names. -/
structure BCorpAdvisor where
  domain_to_name : WikiStrId → Option String

/-- `BCorpAdvisor::new` (advisors.rs lines 17-23). -/
def BCorpAdvisor.new (records : List BCorpRecord) : BCorpAdvisor :=
  { domain_to_name :=
      hmCollect (records.map fun r =>
        (extract_domain_from_url r.website, r.company_name)) }

/-- `BCorpAdvisor::load` (advisors.rs lines 26-34).  The file system is
modelled by the argument: `some records` when `is_path_ok` holds and the
file parses to `records`, `none` when the path is inaccessible. -/
def BCorpAdvisor.load (file : Option (List BCorpRecord)) :
    Except ProcessingError BCorpAdvisor :=
  match file with
  | some data => .ok (BCorpAdvisor.new data)
  | none => .ok (BCorpAdvisor.new [])

/-- `BCorpAdvisor::has_domains` (advisors.rs lines 37-44): true iff at
least one of the passed domains is a key of the map.  The `HashSet` of
domains is modelled as a list (iteration order is irrelevant to `any`). -/
def BCorpAdvisor.has_domains (a : BCorpAdvisor) (domains : List String) : Bool :=
  domains.any fun d => (a.domain_to_name d).isSome

/-- One entry of the TCO dataset (`tco::data::Entry`), restricted to the
fields read in advisors.rs lines 158-165. -/
structure TcoEntry where
  wikidata_id : WikiStrId
  company_name : String
deriving DecidableEq, Repr

/-- `TcoAdvisor` (advisors.rs lines 151-154). -/
structure TcoAdvisor where
  companies : WikiStrId → Option String

/-- `TcoAdvisor::new` (advisors.rs lines 158-165). -/
def TcoAdvisor.new (entries : List TcoEntry) : TcoAdvisor :=
  { companies := hmCollect (entries.map fun e => (e.wikidata_id, e.company_name)) }

/-- `TcoAdvisor::load` (advisors.rs lines 168-176); file-system modelling
as in `BCorpAdvisor.load`. -/
def TcoAdvisor.load (file : Option (List TcoEntry)) :
    Except ProcessingError TcoAdvisor :=
  match file with
  | some data => .ok (TcoAdvisor.new data)
  | none => .ok (TcoAdvisor.new [])

/-- `TcoAdvisor::has_company` (advisors.rs lines 179-181). -/
def TcoAdvisor.has_company (a : TcoAdvisor) (company_id : WikiStrId) : Bool :=
  (a.companies company_id).isSome

/-- One entry of the Fashion Transparency Index dataset
(`fashion_transparency_index::data::Entry`), restricted to the fields read
in advisors.rs lines 199-266. -/
structure FtiEntry where
  wikidata_id : Option WikiStrId
  name : String
  score : Nat
deriving DecidableEq, Repr

/-- `FashionTransparencyIndexAdvisor` (advisors.rs lines 195-197). -/
structure FashionTransparencyIndexAdvisor where
  entries : WikiStrId → Option FtiEntry

/-- `HashSet::insert` on the repeated-ids set, modelled as a duplicate-free
list (advisors.rs line 213). -/
def setInsert (s : List WikiStrId) (id : WikiStrId) : List WikiStrId :=
  if id ∈ s then s else s ++ [id]

/-- One iteration of the validation loop of
`FashionTransparencyIndexAdvisor::new` (advisors.rs lines 207-216): state
is the entries map and the repeated-ids set. -/
def ftiStep (st : (WikiStrId → Option FtiEntry) × List WikiStrId)
    (e : FtiEntry) : (WikiStrId → Option FtiEntry) × List WikiStrId :=
  match e.wikidata_id with
  | none => st
  | some id =>
    match st.1 id with
    | none => (hmInsert st.1 id e, st.2)
    | some _ => (st.1, setInsert st.2 id)

/-- `FashionTransparencyIndexAdvisor::new` (advisors.rs lines 201-223):
fails with `RepeatedIds` when any Wikidata id is repeated. -/
def FashionTransparencyIndexAdvisor.new (source : List FtiEntry) :
    Except SourcesCheckError FashionTransparencyIndexAdvisor :=
  let st := source.foldl ftiStep (fun _ => none, [])
  if st.2.isEmpty then .ok { entries := st.1 }
  else .error (.RepeatedIds st.2)

/-- `FashionTransparencyIndexAdvisor::load` (advisors.rs lines 226-238);
file-system modelling as in `BCorpAdvisor.load`.  The `?` on `Self::new`
propagates the validation error through `From<SourcesCheckError>`. -/
def FashionTransparencyIndexAdvisor.load (file : Option (List FtiEntry)) :
    Except ProcessingError FashionTransparencyIndexAdvisor :=
  match file with
  | some data =>
    match FashionTransparencyIndexAdvisor.new data with
    | .ok result => .ok result
    | .error e => .error (.SourcesCheck e)
  | none =>
    match FashionTransparencyIndexAdvisor.new [] with
    | .ok result => .ok result
    | .error e => .error (.SourcesCheck e)

/-- `FashionTransparencyIndexAdvisor::has_company` (advisors.rs 241-243). -/
def FashionTransparencyIndexAdvisor.has_company
    (a : FashionTransparencyIndexAdvisor) (company_id : WikiStrId) : Bool :=
  (a.entries company_id).isSome

/-- Modelled from the spec: `get_score`, called at condensing.rs line 172,
is not in the src/ copy of advisors.rs; §4.2: "score lookup by
organisation id". -/
def FashionTransparencyIndexAdvisor.get_score
    (a : FashionTransparencyIndexAdvisor) (company_id : WikiStrId) : Option Nat :=
  (a.entries company_id).map (·.score)

/-- `CondensingSources` (condensing.rs lines 41-53). -/
structure CondensingSources where
  cache : Wikidata
  bcorp : BCorpAdvisor
  tco : TcoAdvisor
  fti : FashionTransparencyIndexAdvisor

/-- `CondensingCollector` (condensing.rs lines 75-82). -/
structure CondensingCollector where
  products : List Product
  organisations : List Organisation
deriving DecidableEq, Repr

/-- `CondensingCollector::default()`. -/
def CondensingCollector.empty : CondensingCollector :=
  { products := [], organisations := [] }

/-- `CondensingCollector::add_product` (condensing.rs lines 86-88). -/
def CondensingCollector.add_product (c : CondensingCollector) (p : Product) :
    CondensingCollector :=
  { c with products := c.products ++ [p] }

/-- `CondensingCollector::add_organisation` (condensing.rs lines 91-93). -/
def CondensingCollector.add_organisation (c : CondensingCollector)
    (o : Organisation) : CondensingCollector :=
  { c with organisations := c.organisations ++ [o] }

/-- `impl merge::Merge for CondensingCollector` (condensing.rs lines
96-101): `extend_from_slice` / `extend` append the other collector's
sequences. -/
def CondensingCollector.merge (c other : CondensingCollector) :
    CondensingCollector :=
  { products := c.products ++ other.products
    organisations := c.organisations ++ other.organisations }

namespace CondensingProcessor

/-- `CondensingProcessor::is_organisation` (condensing.rs lines 110-113). -/
def is_organisation (item : Item) (sources : CondensingSources) : Bool :=
  sources.cache.has_manufacturer_id item.id || item.has_official_website

/-- The Product record built at condensing.rs lines 140-153. -/
def mkProduct (item : Item) (name : String) : Product :=
  { id := item.id
    name := name
    description := (lookupLang item.descriptions LANG_EN).getD ""
    category :=
      if item.is_instance_of SMARTPHONE_MODEL then some Category.smartphone
      else none
    manufacturer_ids := item.get_manufacturer_ids
    follows := item.get_follows
    followed_by := item.get_followed_by
    certifications := Certifications.default }

/-- The Organisation record built at condensing.rs lines 159-187.  The
domains `HashSet` is modelled by the plain list of extracted domains
(duplicates do not change `has_domains`). -/
def mkOrganisation (item : Item) (name : String)
    (sources : CondensingSources) : Organisation :=
  let websites := item.get_official_websites
  let domains := (websites.getD []).map extract_domain_from_url
  { id := item.id
    name := name
    description := (lookupLang item.descriptions LANG_EN).getD ""
    websites := websites.getD []
    certifications :=
      { bcorp := sources.bcorp.has_domains domains
        tco := sources.tco.has_company item.id
        fti := sources.fti.get_score item.id } }

/-- `CondensingProcessor::handle_entity` (condensing.rs lines 122-195).
The source's `Result` return is always `Ok(())`, so the embedding returns
the updated collector directly. -/
def handle_entity (entity : Entity) (sources : CondensingSources)
    (collector : CondensingCollector) : CondensingCollector :=
  match entity with
  | .item item =>
    match lookupLang item.labels LANG_EN with
    | some name =>
      let c1 :=
        if item.get_manufacturer_ids.isSome then
          collector.add_product (mkProduct item name)
        else collector
      if is_organisation item sources then
        c1.add_organisation (mkOrganisation item name sources)
      else c1
    | none => collector
  | .property _ => collector

/-- The organisation-certifications map built by `finalize`
(condensing.rs lines 203-208): `collect` into a `HashMap`. -/
def orgCertMap (organisations : List Organisation) :
    WikiStrId → Option Certifications :=
  hmCollect (organisations.map fun m => (m.id, m.certifications))

/-- The per-product certification assignment of `finalize` (condensing.rs
lines 210-218): merge in the certifications of every manufacturer found in
the map. -/
def finalizeProduct (m : WikiStrId → Option Certifications) (p : Product) :
    Product :=
  match p.manufacturer_ids with
  | none => p
  | some manufacturer_ids =>
    { p with
      certifications :=
        manufacturer_ids.foldl
          (fun c manufacturer_id =>
            match m manufacturer_id with
            | some certifications => c.merge certifications
            | none => c)
          p.certifications }

/-- The pure part of `CondensingProcessor::finalize` (condensing.rs lines
198-218): the product list that is serialised to the products output file.
The file writes themselves are I/O and are not modelled. -/
def finalizeProducts (collector : CondensingCollector) : List Product :=
  collector.products.map (finalizeProduct (orgCertMap collector.organisations))

end CondensingProcessor

/-! ### Helper definitions -/

/-- The product records one item contributes to the collector. -/
def prodContrib (item : Item) : List Product :=
  match lookupLang item.labels LANG_EN with
  | some name =>
    if item.get_manufacturer_ids.isSome then
      [CondensingProcessor.mkProduct item name]
    else []
  | none => []

/-- The organisation records one item contributes to the collector. -/
def orgContrib (item : Item) (sources : CondensingSources) : List Organisation :=
  match lookupLang item.labels LANG_EN with
  | some name =>
    if CondensingProcessor.is_organisation item sources then
      [CondensingProcessor.mkOrganisation item name sources]
    else []
  | none => []

/-- Last-occurrence lookup in an insertion sequence. -/
def lastLook {V : Type} : List (WikiStrId × V) → WikiStrId → Option V
  | [], _ => none
  | p :: t, k =>
    match lastLook t k with
    | some v => some v
    | none => if p.1 = k then some p.2 else none

/-- The number of dataset entries carrying the given Wikidata id. -/
def countId : List FtiEntry → WikiStrId → Nat
  | [], _ => 0
  | e :: t, id => (if e.wikidata_id = some id then 1 else 0) + countId t id

/-! ### Concrete fixtures used to evaluate the theorems -/

/-- Concrete supplementary sources: the cache knows manufacturer `Q1`,
BCorp certifies the domain of `acme.com`, TCO certifies `Q1`, and the
Fashion Transparency Index is empty. -/
def cSources : CondensingSources :=
  { cache := { manufacturer_ids := ["Q1"], classes := [] }
    bcorp := BCorpAdvisor.new [{ company_name := "Acme", website := "acme.com" }]
    tco := TcoAdvisor.new [{ wikidata_id := "Q1", company_name := "Acme" }]
    fti := { entries := fun _ => none } }

/-- An item with a manufacturer relation and an official website but no
English label. -/
def cItemNoLabel : Item :=
  { id := "Q2"
    labels := [("de", "Ding")]
    descriptions := []
    manufacturers := ["Q1"]
    websites := ["acme.com"]
    instance_of := []
    follows_rel := []
    followed_by_rel := [] }

/-- An item with an English label, no English description, a manufacturer
relation and an official website. -/
def cItemBoth : Item :=
  { id := "Q2"
    labels := [("en", "Thing")]
    descriptions := []
    manufacturers := ["Q1"]
    websites := ["acme.com"]
    instance_of := []
    follows_rel := []
    followed_by_rel := [] }

/-- An organisation item with an official website and no manufacturer
relation. -/
def cItemA : Item :=
  { id := "Q1"
    labels := [("en", "Acme")]
    descriptions := []
    manufacturers := []
    websites := ["acme.com"]
    instance_of := []
    follows_rel := []
    followed_by_rel := [] }

/-- A product item whose manufacturer is `cItemA`. -/
def cItemB : Item :=
  { id := "Q2"
    labels := [("en", "Phone")]
    descriptions := []
    manufacturers := ["Q1"]
    websites := []
    instance_of := []
    follows_rel := []
    followed_by_rel := [] }

/-- A concrete product referencing manufacturer `Q1`. -/
def cProd : Product :=
  { id := "Q9"
    name := "P"
    description := ""
    category := none
    manufacturer_ids := some ["Q1"]
    follows := none
    followed_by := none
    certifications := Certifications.default }

/-- A concrete organisation with id `Q1` and a BCorp certification. -/
def cOrgQ1 : Organisation :=
  { id := "Q1"
    name := "Acme"
    description := ""
    websites := []
    certifications := { bcorp := true, tco := false, fti := some 5 } }

/-- A second organisation with the same id `Q1` but different
certifications. -/
def cOrgQ1b : Organisation :=
  { id := "Q1"
    name := "Acme2"
    description := ""
    websites := []
    certifications := { bcorp := false, tco := true, fti := none } }

/-- A Fashion Transparency Index input with a duplicated Wikidata id. -/
def cDup : List FtiEntry :=
  [{ wikidata_id := some "Q1", name := "A", score := 1 },
   { wikidata_id := some "Q1", name := "B", score := 2 }]

/-- A concrete collector holding `cProd` and `cOrgQ1`. -/
def cColl : CondensingCollector :=
  { products := [cProd], organisations := [cOrgQ1] }

/-! ### Helper lemmas -/

theorem handle_entity_item (item : Item) (s : CondensingSources)
    (c : CondensingCollector) :
    CondensingProcessor.handle_entity (.item item) s c =
      { products := c.products ++ prodContrib item
        organisations := c.organisations ++ orgContrib item s } := by
  simp only [CondensingProcessor.handle_entity, prodContrib, orgContrib]
  cases h : lookupLang item.labels LANG_EN with
  | none => simp
  | some name =>
    by_cases hm : item.get_manufacturer_ids.isSome <;>
      by_cases ho : CondensingProcessor.is_organisation item s <;>
        simp [hm, ho, CondensingCollector.add_product,
          CondensingCollector.add_organisation]

theorem handle_entity_property (id : WikiStrId) (s : CondensingSources)
    (c : CondensingCollector) :
    CondensingProcessor.handle_entity (.property id) s c = c := rfl

theorem prodContrib_len (item : Item) : (prodContrib item).length ≤ 1 := by
  unfold prodContrib
  cases lookupLang item.labels LANG_EN with
  | none => simp
  | some name =>
    by_cases hm : item.get_manufacturer_ids.isSome <;> simp [hm]

theorem orgContrib_len (item : Item) (s : CondensingSources) :
    (orgContrib item s).length ≤ 1 := by
  unfold orgContrib
  cases lookupLang item.labels LANG_EN with
  | none => simp
  | some name =>
    by_cases ho : CondensingProcessor.is_organisation item s <;> simp [ho]

theorem orgContrib_id (item : Item) (s : CondensingSources) (o : Organisation)
    (h : o ∈ orgContrib item s) : o.id = item.id := by
  unfold orgContrib at h
  cases hl : lookupLang item.labels LANG_EN with
  | none => rw [hl] at h; simp at h
  | some name =>
    rw [hl] at h
    by_cases ho : CondensingProcessor.is_organisation item s
    · simp [ho] at h
      rw [h]
      rfl
    · simp [ho] at h

theorem foldl_hmInsert {V : Type} (l : List (WikiStrId × V))
    (m : WikiStrId → Option V) (k : WikiStrId) :
    (l.foldl (fun m p => hmInsert m p.1 p.2) m) k =
      match lastLook l k with
      | some v => some v
      | none => m k := by
  induction l generalizing m with
  | nil => rfl
  | cons p t ih =>
    simp only [List.foldl_cons, lastLook]
    rw [ih]
    cases hl : lastLook t k with
    | some v => simp
    | none =>
      by_cases h : p.1 = k
      · simp [hmInsert, h]
      · have h2 : ¬(k = p.1) := fun hk => h hk.symm
        simp [hmInsert, h, h2]

/-- `HashMap` collection looks up the last pair with the given key. -/
theorem hmCollect_eq_lastLook {V : Type} (l : List (WikiStrId × V))
    (k : WikiStrId) : hmCollect l k = lastLook l k := by
  unfold hmCollect
  rw [foldl_hmInsert]
  cases lastLook l k <;> simp

theorem lastLook_append {V : Type} (l1 l2 : List (WikiStrId × V))
    (k : WikiStrId) :
    lastLook (l1 ++ l2) k =
      match lastLook l2 k with
      | some v => some v
      | none => lastLook l1 k := by
  induction l1 with
  | nil => simp only [List.nil_append, lastLook]; cases lastLook l2 k <;> simp
  | cons p t ih =>
    simp only [List.cons_append, lastLook, List.append_eq]
    rw [ih]
    cases lastLook l2 k <;> cases lastLook t k <;> simp

theorem lastLook_isSome {V : Type} (l : List (WikiStrId × V)) (k : WikiStrId)
    (v : V) (h : (k, v) ∈ l) : (lastLook l k).isSome = true := by
  induction l with
  | nil => simp at h
  | cons p t ih =>
    simp only [lastLook]
    cases hl : lastLook t k with
    | some w => simp
    | none =>
      rcases List.mem_cons.mp h with h1 | h2
      · rw [← h1]; simp
      · have := ih h2
        rw [hl] at this
        simp at this

/-- Folding certification merges, projected onto one boolean field that
merges by OR, equals the OR of the initial field and the fields looked up
from the map. -/
theorem foldl_merge_bool (f : Certifications → Bool)
    (hf : ∀ a b, f (a.merge b) = (f a || f b))
    (m : WikiStrId → Option Certifications) (ids : List WikiStrId)
    (c : Certifications) :
    f (ids.foldl
        (fun c mid =>
          match m mid with
          | some cert => c.merge cert
          | none => c)
        c) =
      (f c || ids.any fun mid => ((m mid).map f).getD false) := by
  induction ids generalizing c with
  | nil => simp
  | cons i t ih =>
    simp only [List.foldl_cons, List.any_cons]
    cases hm : m i with
    | none => rw [ih]; simp [hm]
    | some cert => rw [ih, hf]; simp [hm, Bool.or_assoc]

theorem lastLook_none {V : Type} (l : List (WikiStrId × V)) (k : WikiStrId)
    (h : ∀ pr ∈ l, pr.1 ≠ k) : lastLook l k = none := by
  induction l with
  | nil => rfl
  | cons p t ih =>
    simp only [lastLook]
    rw [ih (fun pr hpr => h pr (List.mem_cons_of_mem p hpr))]
    simp [h p (List.mem_cons_self p t)]

theorem mem_setInsert (s : List WikiStrId) (k id : WikiStrId) :
    id ∈ setInsert s k ↔ id ∈ s ∨ id = k := by
  unfold setInsert
  by_cases h : k ∈ s
  · rw [if_pos h]
    constructor
    · exact Or.inl
    · rintro (h1 | rfl)
      · exact h1
      · exact h
  · rw [if_neg h]
    simp

/-- Characterisation of the validation fold of
`FashionTransparencyIndexAdvisor::new`: after processing `l` from state
`st`, an id is in the entries map iff it was there before or occurs in
`l`, and it is in the repeated set iff it was there before, or it was
already mapped and occurs in `l`, or it occurs at least twice in `l`. -/
theorem ftiFold_char (l : List FtiEntry)
    (st : (WikiStrId → Option FtiEntry) × List WikiStrId) (id : WikiStrId) :
    (((l.foldl ftiStep st).1 id).isSome = true ↔
      (st.1 id).isSome = true ∨ 1 ≤ countId l id) ∧
    (id ∈ (l.foldl ftiStep st).2 ↔
      id ∈ st.2 ∨ ((st.1 id).isSome = true ∧ 1 ≤ countId l id) ∨
        2 ≤ countId l id) := by
  induction l generalizing st with
  | nil => simp [countId]
  | cons e t ih =>
    simp only [List.foldl_cons, countId]
    cases he : e.wikidata_id with
    | none =>
      have hst : ftiStep st e = st := by simp [ftiStep, he]
      rw [hst]
      simpa using ih st
    | some k =>
      by_cases hk : k = id
      · cases hs : st.1 k with
        | none =>
          have hst : ftiStep st e = (hmInsert st.1 k e, st.2) := by
            simp [ftiStep, he, hs]
          rw [hst]
          obtain ⟨ih1, ih2⟩ := ih (hmInsert st.1 k e, st.2)
          dsimp only at ih1 ih2
          have hin : (hmInsert st.1 k e id).isSome = true := by
            simp [hmInsert, hk]
          have hs' : (st.1 id).isSome = false := by rw [← hk, hs]; rfl
          have hcnt : (if some k = some id then 1 else 0) = 1 := by simp [hk]
          rw [hcnt, ih1, ih2, hin, hs']
          constructor
          · constructor
            · intro _; right; omega
            · intro _; left; rfl
          · constructor
            · rintro (h1 | ⟨h1, h2⟩ | h1)
              · exact Or.inl h1
              · right; right; omega
              · right; right; omega
            · rintro (h1 | ⟨h1, h2⟩ | h1)
              · exact Or.inl h1
              · exact absurd h1 (by simp)
              · right; left; exact ⟨rfl, by omega⟩
        | some e0 =>
          have hst : ftiStep st e = (st.1, setInsert st.2 k) := by
            simp [ftiStep, he, hs]
          rw [hst]
          obtain ⟨ih1, ih2⟩ := ih (st.1, setInsert st.2 k)
          dsimp only at ih1 ih2
          have hsome : (st.1 id).isSome = true := by rw [← hk, hs]; rfl
          have hcnt : (if some k = some id then 1 else 0) = 1 := by simp [hk]
          have h1c : 1 ≤ 1 + countId t id := by omega
          rw [hcnt, ih1, ih2, mem_setInsert]
          constructor
          · simp [hsome, h1c]
          · simp [hsome, hk, h1c]
      · have hkid : ¬(id = k) := fun hh => hk hh.symm
        have hcnt : (if some k = some id then 1 else 0) = 0 := by simp [hk]
        cases hs : st.1 k with
        | none =>
          have hst : ftiStep st e = (hmInsert st.1 k e, st.2) := by
            simp [ftiStep, he, hs]
          rw [hst]
          obtain ⟨ih1, ih2⟩ := ih (hmInsert st.1 k e, st.2)
          dsimp only at ih1 ih2
          have hins : hmInsert st.1 k e id = st.1 id := by
            simp only [hmInsert]
            rw [if_neg hkid]
          rw [hins] at ih1 ih2
          rw [hcnt, ih1, ih2]
          constructor
          · simp
          · simp
        | some e0 =>
          have hst : ftiStep st e = (st.1, setInsert st.2 k) := by
            simp [ftiStep, he, hs]
          rw [hst]
          obtain ⟨ih1, ih2⟩ := ih (st.1, setInsert st.2 k)
          dsimp only at ih1 ih2
          have hmem : id ∈ setInsert st.2 k ↔ id ∈ st.2 := by
            rw [mem_setInsert]
            simp [hkid]
          rw [hmem] at ih2
          rw [hcnt, ih1, ih2]
          constructor
          · simp
          · simp

theorem finalizeProduct_id (m : WikiStrId → Option Certifications)
    (p : Product) : (CondensingProcessor.finalizeProduct m p).id = p.id := by
  unfold CondensingProcessor.finalizeProduct
  cases p.manufacturer_ids <;> rfl

theorem merge_bcorp (a b : Certifications) :
    (a.merge b).bcorp = (a.bcorp || b.bcorp) := rfl

theorem merge_tco (a b : Certifications) :
    (a.merge b).tco = (a.tco || b.tco) := rfl

/-- The certification assignment of `finalize`, projected onto one boolean
field that merges by OR. -/
theorem finalizeProduct_bool (f : Certifications → Bool)
    (hf : ∀ a b, f (a.merge b) = (f a || f b))
    (m : WikiStrId → Option Certifications) (p : Product) :
    f (CondensingProcessor.finalizeProduct m p).certifications =
      (f p.certifications ||
        (p.manufacturer_ids.getD []).any fun mid =>
          ((m mid).map f).getD false) := by
  unfold CondensingProcessor.finalizeProduct
  cases hm : p.manufacturer_ids with
  | none => simp
  | some ids =>
    simp only [Option.getD_some]
    exact foldl_merge_bool f hf m ids p.certifications

/-- The organisation-certification maps of two concatenations in either
order agree when no organisation identifier occurs on both sides. -/
theorem orgCertMap_swap (oa ob : List Organisation)
    (hdis : ∀ x ∈ oa, ∀ y ∈ ob, x.id ≠ y.id) :
    CondensingProcessor.orgCertMap (oa ++ ob) =
      CondensingProcessor.orgCertMap (ob ++ oa) := by
  funext k
  unfold CondensingProcessor.orgCertMap
  rw [hmCollect_eq_lastLook, hmCollect_eq_lastLook, List.map_append,
    List.map_append, lastLook_append, lastLook_append]
  by_cases ha : ∃ x ∈ oa, x.id = k
  · have hb : lastLook (ob.map fun m => (m.id, m.certifications)) k = none := by
      apply lastLook_none
      intro pr hpr
      obtain ⟨m, hm, hpr2⟩ := List.mem_map.mp hpr
      have h1 : pr.1 = m.id := by rw [← hpr2]
      rw [h1]
      obtain ⟨x, hx, hxk⟩ := ha
      intro hh
      exact hdis x hx m hm (hxk.trans hh.symm)
    rw [hb]
    cases lastLook (oa.map fun m => (m.id, m.certifications)) k <;> simp
  · have hano : lastLook (oa.map fun m => (m.id, m.certifications)) k = none := by
      apply lastLook_none
      intro pr hpr
      obtain ⟨m, hm, hpr2⟩ := List.mem_map.mp hpr
      have h1 : pr.1 = m.id := by rw [← hpr2]
      rw [h1]
      intro hh
      exact ha ⟨m, hm, hh⟩
    rw [hano]
    cases lastLook (ob.map fun m => (m.id, m.certifications)) k <;> simp

/-- Finalizing two collectors that hold the same records in swapped order
yields the same set of finalized products, provided the two organisation
maps agree. -/
theorem mem_finalize_swap (pa pb : List Product) (oa ob : List Organisation)
    (hm : CondensingProcessor.orgCertMap (oa ++ ob) =
      CondensingProcessor.orgCertMap (ob ++ oa)) (q : Product) :
    (q ∈ CondensingProcessor.finalizeProducts
        { products := pa ++ pb, organisations := oa ++ ob } ↔
      q ∈ CondensingProcessor.finalizeProducts
        { products := pb ++ pa, organisations := ob ++ oa }) := by
  unfold CondensingProcessor.finalizeProducts
  dsimp only
  rw [hm]
  simp only [List.map_append, List.mem_append]
  tauto

/-! ### Claim theorems -/

/-- C1 counterexample: the claim as stated fails on the code.  The item
`cItemNoLabel` has a manufacturer relation, yet handling it yields no
Product record (and no record at all), because it has no label in the
configured language and condensing.rs line 131 gates the entire handler on
the label. -/
theorem C1_counterexample :
    cItemNoLabel.get_manufacturer_ids.isSome = true ∧
    CondensingProcessor.handle_entity (.item cItemNoLabel) cSources
      CondensingCollector.empty = CondensingCollector.empty := by
  constructor
  · rfl
  · rfl

/-- C1 (amended): for every item entity that has a label in the configured
language, a manufacturer relation yields exactly one appended Product
record and no manufacturer relation appends none; a known manufacturer id
(per the precomputed cache) or at least one official website yields exactly
one appended Organisation record, and neither signal appends none.  Both
can hold for one entity, and neither holding yields no output record. -/
theorem C1_classification (item : Item) (s : CondensingSources)
    (c : CondensingCollector) (name : String)
    (h : lookupLang item.labels LANG_EN = some name) :
    (item.get_manufacturer_ids.isSome = true →
      ∃ p : Product,
        (CondensingProcessor.handle_entity (.item item) s c).products =
          c.products ++ [p] ∧ p.id = item.id) ∧
    (item.get_manufacturer_ids.isSome = false →
      (CondensingProcessor.handle_entity (.item item) s c).products =
        c.products) ∧
    ((s.cache.has_manufacturer_id item.id || item.has_official_website) = true →
      ∃ o : Organisation,
        (CondensingProcessor.handle_entity (.item item) s c).organisations =
          c.organisations ++ [o] ∧ o.id = item.id) ∧
    ((s.cache.has_manufacturer_id item.id || item.has_official_website) = false →
      (CondensingProcessor.handle_entity (.item item) s c).organisations =
        c.organisations) := by
  refine ⟨?_, ?_, ?_, ?_⟩
  · intro hm
    refine ⟨CondensingProcessor.mkProduct item name, ?_, rfl⟩
    rw [handle_entity_item]
    simp [prodContrib, h, hm]
  · intro hm
    rw [handle_entity_item]
    simp [prodContrib, h, hm]
  · intro ho
    refine ⟨CondensingProcessor.mkOrganisation item name s, ?_, rfl⟩
    rw [handle_entity_item]
    simp [orgContrib, h, CondensingProcessor.is_organisation, ho]
  · intro ho
    rw [handle_entity_item]
    simp [orgContrib, h, CondensingProcessor.is_organisation, ho]

/-- Witness for C1 (amended): evaluated at `cItemBoth`, which satisfies
both conditions and yields both records. -/
theorem C1_classification_witness :
    lookupLang cItemBoth.labels LANG_EN = some "Thing" ∧
    ((cItemBoth.get_manufacturer_ids.isSome = true →
      ∃ p : Product,
        (CondensingProcessor.handle_entity (.item cItemBoth) cSources
          CondensingCollector.empty).products =
          CondensingCollector.empty.products ++ [p] ∧ p.id = cItemBoth.id) ∧
    (cItemBoth.get_manufacturer_ids.isSome = false →
      (CondensingProcessor.handle_entity (.item cItemBoth) cSources
        CondensingCollector.empty).products =
        CondensingCollector.empty.products) ∧
    ((cSources.cache.has_manufacturer_id cItemBoth.id ||
        cItemBoth.has_official_website) = true →
      ∃ o : Organisation,
        (CondensingProcessor.handle_entity (.item cItemBoth) cSources
          CondensingCollector.empty).organisations =
          CondensingCollector.empty.organisations ++ [o] ∧ o.id = cItemBoth.id) ∧
    ((cSources.cache.has_manufacturer_id cItemBoth.id ||
        cItemBoth.has_official_website) = false →
      (CondensingProcessor.handle_entity (.item cItemBoth) cSources
        CondensingCollector.empty).organisations =
        CondensingCollector.empty.organisations)) :=
  ⟨by decide,
    C1_classification cItemBoth cSources CondensingCollector.empty "Thing"
      (by decide)⟩

/-- C2: the Finalizer builds a map from organisation identifier to that
organisation's Certifications (defined for every collected organisation),
and every Product's finalized certifications OR together the product's own
boolean fields with the boolean fields of every referenced manufacturer
found in the map. -/
theorem C2_finalize_or (collector : CondensingCollector) (p : Product)
    (hp : p ∈ collector.products) :
    (∀ o ∈ collector.organisations,
      (CondensingProcessor.orgCertMap collector.organisations o.id).isSome =
        true) ∧
    ∃ q : Product,
      q ∈ CondensingProcessor.finalizeProducts collector ∧
      q.id = p.id ∧
      q.certifications.bcorp =
        (p.certifications.bcorp ||
          (p.manufacturer_ids.getD []).any fun mid =>
            ((CondensingProcessor.orgCertMap collector.organisations mid).map
              Certifications.bcorp).getD false) ∧
      q.certifications.tco =
        (p.certifications.tco ||
          (p.manufacturer_ids.getD []).any fun mid =>
            ((CondensingProcessor.orgCertMap collector.organisations mid).map
              Certifications.tco).getD false) := by
  constructor
  · intro o ho
    unfold CondensingProcessor.orgCertMap
    rw [hmCollect_eq_lastLook]
    exact lastLook_isSome _ o.id o.certifications
      (List.mem_map_of_mem (fun m => (m.id, m.certifications)) ho)
  · refine ⟨CondensingProcessor.finalizeProduct
      (CondensingProcessor.orgCertMap collector.organisations) p,
      List.mem_map_of_mem _ hp, finalizeProduct_id _ p, ?_, ?_⟩
    · exact finalizeProduct_bool Certifications.bcorp merge_bcorp _ p
    · exact finalizeProduct_bool Certifications.tco merge_tco _ p

/-- Witness for C2: evaluated on a collector holding one product that
references the one collected organisation. -/
theorem C2_finalize_or_witness :
    cProd ∈ cColl.products ∧
    ((∀ o ∈ cColl.organisations,
      (CondensingProcessor.orgCertMap cColl.organisations o.id).isSome =
        true) ∧
    ∃ q : Product,
      q ∈ CondensingProcessor.finalizeProducts cColl ∧
      q.id = cProd.id ∧
      q.certifications.bcorp =
        (cProd.certifications.bcorp ||
          (cProd.manufacturer_ids.getD []).any fun mid =>
            ((CondensingProcessor.orgCertMap cColl.organisations mid).map
              Certifications.bcorp).getD false) ∧
      q.certifications.tco =
        (cProd.certifications.tco ||
          (cProd.manufacturer_ids.getD []).any fun mid =>
            ((CondensingProcessor.orgCertMap cColl.organisations mid).map
              Certifications.tco).getD false)) :=
  ⟨by decide, C2_finalize_or cColl cProd (by decide)⟩

/-- C3: with the two entities carrying distinct identifiers (the dump
invariant of §3), streaming a Product entity and the Organisation entity
it references in either relative order and then finalizing produces the
same set of finalized Product records, hence identical final
Product.Certifications. -/
theorem C3_order_independence (a b : Item) (s : CondensingSources)
    (h : a.id ≠ b.id) (q : Product) :
    (q ∈ CondensingProcessor.finalizeProducts
        (CondensingProcessor.handle_entity (.item b) s
          (CondensingProcessor.handle_entity (.item a) s
            CondensingCollector.empty)) ↔
      q ∈ CondensingProcessor.finalizeProducts
        (CondensingProcessor.handle_entity (.item a) s
          (CondensingProcessor.handle_entity (.item b) s
            CondensingCollector.empty))) := by
  have hdis : ∀ x ∈ orgContrib a s, ∀ y ∈ orgContrib b s, x.id ≠ y.id := by
    intro x hx y hy
    rw [orgContrib_id a s x hx, orgContrib_id b s y hy]
    exact h
  have hswap := orgCertMap_swap (orgContrib a s) (orgContrib b s) hdis
  simp only [handle_entity_item, CondensingCollector.empty, List.nil_append]
  exact mem_finalize_swap (prodContrib a) (prodContrib b) (orgContrib a s)
    (orgContrib b s) hswap q

/-- Witness for C3: evaluated at the organisation item `cItemA` and the
product item `cItemB` that references it. -/
theorem C3_order_independence_witness :
    cItemA.id ≠ cItemB.id ∧
    (cProd ∈ CondensingProcessor.finalizeProducts
        (CondensingProcessor.handle_entity (.item cItemB) cSources
          (CondensingProcessor.handle_entity (.item cItemA) cSources
            CondensingCollector.empty)) ↔
      cProd ∈ CondensingProcessor.finalizeProducts
        (CondensingProcessor.handle_entity (.item cItemA) cSources
          (CondensingProcessor.handle_entity (.item cItemB) cSources
            CondensingCollector.empty))) :=
  ⟨by decide, C3_order_independence cItemA cItemB cSources (by decide) cProd⟩

/-- C4: merging two accumulators concatenates their Product and
Organisation sequences; the resulting sets are the unions of the inputs'
sets, independent of merge direction (commutative under set equality), and
the merge is associative on the nose. -/
theorem C4_merge_union (A B C : CondensingCollector) :
    ((A.merge B).products = A.products ++ B.products ∧
      (A.merge B).organisations = A.organisations ++ B.organisations) ∧
    (∀ p : Product,
      p ∈ (A.merge B).products ↔ p ∈ A.products ∨ p ∈ B.products) ∧
    (∀ o : Organisation,
      o ∈ (A.merge B).organisations ↔
        o ∈ A.organisations ∨ o ∈ B.organisations) ∧
    (∀ p : Product, p ∈ (A.merge B).products ↔ p ∈ (B.merge A).products) ∧
    (∀ o : Organisation,
      o ∈ (A.merge B).organisations ↔ o ∈ (B.merge A).organisations) ∧
    (A.merge B).merge C = A.merge (B.merge C) := by
  refine ⟨⟨rfl, rfl⟩, ?_, ?_, ?_, ?_, ?_⟩
  · intro p; simp [CondensingCollector.merge]
  · intro o; simp [CondensingCollector.merge]
  · intro p; simp [CondensingCollector.merge]; tauto
  · intro o; simp [CondensingCollector.merge]; tauto
  · simp [CondensingCollector.merge, List.append_assoc]

/-- C5: an item without a label entry in the configured language is skipped
entirely: the collector is returned unchanged, so the entity appears in
neither the Products nor the Organisations, regardless of its relations. -/
theorem C5_label_required (item : Item) (s : CondensingSources)
    (c : CondensingCollector)
    (h : lookupLang item.labels LANG_EN = none) :
    CondensingProcessor.handle_entity (.item item) s c = c := by
  simp [CondensingProcessor.handle_entity, h]

/-- Witness for C5: `cItemNoLabel` has a manufacturer relation and an
official website but no English label, and is dropped. -/
theorem C5_label_required_witness :
    lookupLang cItemNoLabel.labels LANG_EN = none ∧
    CondensingProcessor.handle_entity (.item cItemNoLabel) cSources
      CondensingCollector.empty = CondensingCollector.empty :=
  ⟨by decide,
    C5_label_required cItemNoLabel cSources CondensingCollector.empty
      (by decide)⟩

/-- C6: loading any of the three optional auxiliary datasets from an
inaccessible source file succeeds (returns `Ok`), and the index obtained
is empty: every membership test returns false and every lookup returns
not-found. -/
theorem C6_missing_optional_dataset :
    (BCorpAdvisor.load none = .ok (BCorpAdvisor.new []) ∧
      ∀ domains : List String,
        (BCorpAdvisor.new []).has_domains domains = false) ∧
    (TcoAdvisor.load none = .ok (TcoAdvisor.new []) ∧
      ∀ id : WikiStrId, (TcoAdvisor.new []).has_company id = false) ∧
    (FashionTransparencyIndexAdvisor.load none =
        .ok { entries := fun _ => none } ∧
      (∀ id : WikiStrId,
        FashionTransparencyIndexAdvisor.has_company
          { entries := fun _ => none } id = false) ∧
      (∀ id : WikiStrId,
        FashionTransparencyIndexAdvisor.get_score
          { entries := fun _ => none } id = none)) := by
  refine ⟨⟨rfl, ?_⟩, ⟨rfl, ?_⟩, rfl, ?_, ?_⟩
  · intro domains
    simp [BCorpAdvisor.has_domains, BCorpAdvisor.new, hmCollect]
  · intro id
    rfl
  · intro id
    rfl
  · intro id
    rfl

/-- C7: whenever the Fashion Transparency Index input repeats at least one
Wikidata id, index construction fails with a single `RepeatedIds`
validation error whose payload contains exactly the identifiers occurring
in two or more entries; it does not succeed. -/
theorem C7_duplicate_ids (source : List FtiEntry)
    (h : ∃ id, 2 ≤ countId source id) :
    ∃ ids, FashionTransparencyIndexAdvisor.new source =
        .error (.RepeatedIds ids) ∧
      ∀ id, id ∈ ids ↔ 2 ≤ countId source id := by
  obtain ⟨id0, hid0⟩ := h
  have hmem : ∀ id, id ∈ (source.foldl ftiStep (fun _ => none, [])).2 ↔
      2 ≤ countId source id := by
    intro id
    have h2 := (ftiFold_char source (fun _ => none, []) id).2
    simpa using h2
  have hne : ¬((source.foldl ftiStep (fun _ => none, [])).2.isEmpty = true) := by
    intro hemp
    have hin : id0 ∈ (source.foldl ftiStep (fun _ => none, [])).2 :=
      (hmem id0).mpr hid0
    rw [List.isEmpty_iff] at hemp
    rw [hemp] at hin
    simp at hin
  refine ⟨(source.foldl ftiStep (fun _ => none, [])).2, ?_, hmem⟩
  unfold FashionTransparencyIndexAdvisor.new
  rw [if_neg hne]

/-- Witness for C7: the two-entry input `cDup` repeats the id `Q1`. -/
theorem C7_duplicate_ids_witness :
    (∃ id, 2 ≤ countId cDup id) ∧
    ∃ ids, FashionTransparencyIndexAdvisor.new cDup =
        .error (.RepeatedIds ids) ∧
      ∀ id, id ∈ ids ↔ 2 ≤ countId cDup id :=
  ⟨⟨"Q1", by decide⟩, C7_duplicate_ids cDup ⟨"Q1", by decide⟩⟩

/-- C8: handling one entity only appends to the invoking accumulator: the
previously collected Products and Organisations are unchanged and in their
original order, and at most one Product and at most one Organisation
(zero, one, or two records total) are appended at the end. -/
theorem C8_frame (e : Entity) (s : CondensingSources)
    (c : CondensingCollector) :
    ∃ ps os,
      (CondensingProcessor.handle_entity e s c).products =
        c.products ++ ps ∧
      ps.length ≤ 1 ∧
      (CondensingProcessor.handle_entity e s c).organisations =
        c.organisations ++ os ∧
      os.length ≤ 1 := by
  cases e with
  | item item =>
    refine ⟨prodContrib item, orgContrib item s, ?_, prodContrib_len item,
      ?_, orgContrib_len item s⟩
    · rw [handle_entity_item]
    · rw [handle_entity_item]
  | property pid =>
    exact ⟨[], [], by simp [handle_entity_property], by simp,
      by simp [handle_entity_property], by simp⟩

/-- C9: when the merged organisation sequence contains two organisations
with the same identifier, the Finalizer's identifier-to-certifications map
holds the Certifications of the later occurrence, and a product
referencing that identifier is merged with the later occurrence's
Certifications. -/
theorem C9_later_occurrence_wins (l1 l2 l3 : List Organisation)
    (o o' : Organisation) (k : WikiStrId) (p : Product)
    (ho : o.id = k) (ho' : o'.id = k) (h3 : ∀ x ∈ l3, x.id ≠ k)
    (hp : p.manufacturer_ids = some [k]) :
    CondensingProcessor.orgCertMap (l1 ++ o :: l2 ++ o' :: l3) k =
      some o'.certifications ∧
    (CondensingProcessor.finalizeProduct
        (CondensingProcessor.orgCertMap (l1 ++ o :: l2 ++ o' :: l3))
        p).certifications =
      p.certifications.merge o'.certifications := by
  have h3' : lastLook (l3.map fun m => (m.id, m.certifications)) k = none := by
    apply lastLook_none
    intro pr hpr
    obtain ⟨m, hm, hpr2⟩ := List.mem_map.mp hpr
    have h1 : pr.1 = m.id := by rw [← hpr2]
    rw [h1]
    exact h3 m hm
  have hmap : CondensingProcessor.orgCertMap (l1 ++ o :: l2 ++ o' :: l3) k =
      some o'.certifications := by
    unfold CondensingProcessor.orgCertMap
    rw [hmCollect_eq_lastLook]
    simp only [List.map_append, List.map_cons]
    have s1 : lastLook ((o'.id, o'.certifications) ::
        l3.map fun m => (m.id, m.certifications)) k =
        some o'.certifications := by
      simp only [lastLook]
      rw [h3']
      simp [ho']
    rw [lastLook_append, s1]
  refine ⟨hmap, ?_⟩
  simp only [CondensingProcessor.finalizeProduct, hp, List.foldl_cons,
    List.foldl_nil]
  rw [hmap]

/-- Witness for C9: two organisations with id `Q1` and different
certifications; the later one's certifications win. -/
theorem C9_later_occurrence_wins_witness :
    cOrgQ1.id = "Q1" ∧ cOrgQ1b.id = "Q1" ∧
    (∀ x ∈ ([] : List Organisation), x.id ≠ "Q1") ∧
    cProd.manufacturer_ids = some ["Q1"] ∧
    (CondensingProcessor.orgCertMap ([] ++ cOrgQ1 :: [] ++ cOrgQ1b :: []) "Q1" =
      some cOrgQ1b.certifications ∧
    (CondensingProcessor.finalizeProduct
        (CondensingProcessor.orgCertMap ([] ++ cOrgQ1 :: [] ++ cOrgQ1b :: []))
        cProd).certifications =
      cProd.certifications.merge cOrgQ1b.certifications) :=
  ⟨rfl, rfl, by simp, rfl,
    C9_later_occurrence_wins [] [] [] cOrgQ1 cOrgQ1b "Q1" cProd rfl rfl
      (by simp) rfl⟩

/-- C10: an item with a label but no description entry in the configured
language is still emitted, with the empty string as the description of the
resulting Product and/or Organisation record. -/
theorem C10_empty_description (item : Item) (s : CondensingSources)
    (c : CondensingCollector) (name : String)
    (hl : lookupLang item.labels LANG_EN = some name)
    (hd : lookupLang item.descriptions LANG_EN = none) :
    (item.get_manufacturer_ids.isSome = true →
      ∃ p : Product,
        (CondensingProcessor.handle_entity (.item item) s c).products =
          c.products ++ [p] ∧ p.description = "") ∧
    (CondensingProcessor.is_organisation item s = true →
      ∃ o : Organisation,
        (CondensingProcessor.handle_entity (.item item) s c).organisations =
          c.organisations ++ [o] ∧ o.description = "") := by
  constructor
  · intro hm
    refine ⟨CondensingProcessor.mkProduct item name, ?_, ?_⟩
    · rw [handle_entity_item]
      simp [prodContrib, hl, hm]
    · simp [CondensingProcessor.mkProduct, hd]
  · intro ho
    refine ⟨CondensingProcessor.mkOrganisation item name s, ?_, ?_⟩
    · rw [handle_entity_item]
      simp [orgContrib, hl, ho]
    · simp [CondensingProcessor.mkOrganisation, hd]

/-- Witness for C10: `cItemBoth` has an English label and no English
description, and is emitted as both records with empty descriptions. -/
theorem C10_empty_description_witness :
    lookupLang cItemBoth.labels LANG_EN = some "Thing" ∧
    lookupLang cItemBoth.descriptions LANG_EN = none ∧
    ((cItemBoth.get_manufacturer_ids.isSome = true →
      ∃ p : Product,
        (CondensingProcessor.handle_entity (.item cItemBoth) cSources
          CondensingCollector.empty).products =
          CondensingCollector.empty.products ++ [p] ∧ p.description = "") ∧
    (CondensingProcessor.is_organisation cItemBoth cSources = true →
      ∃ o : Organisation,
        (CondensingProcessor.handle_entity (.item cItemBoth) cSources
          CondensingCollector.empty).organisations =
          CondensingCollector.empty.organisations ++ [o] ∧
          o.description = "")) :=
  ⟨by decide, by decide,
    C10_empty_description cItemBoth cSources CondensingCollector.empty "Thing"
      (by decide) (by decide)⟩
